import Mathlib

/-!
Verification of the CPU provision assembler (`provisionassembler` package).

The development shallowly embeds `ProvisionAssemblerCommon.AssembleProvision`
and its helpers.  Go maps are modelled as association lists with deterministic
iteration order, machine `int` values as `Int`, NUMA-id sets (`machine.CPUSet`)
as lists of ids in `ToSliceInt` order, and fallible calls as `Except`.  The
out-of-band failure of an out-of-range slice index (`ToSliceInt()[0]` on an
empty set) is modelled as a distinct `panicked` outcome, separate from a
returned error.  Helper functions whose bodies are not among the provided
sources (only their call sites are) carry a doc comment starting with
`Modelled from the spec:` and follow the specification's wording.
-/

/-- Association-list lookup, modelling Go map indexing `v, ok := m[k]`. -/
def lookupAL {α β : Type} [DecidableEq α] : List (α × β) → α → Option β
  | [], _ => none
  | (k, v) :: rest, k' => if k = k' then some v else lookupAL rest k'

/-- Association-list insertion, modelling Go map assignment `m[k] = v`:
an existing binding for the key is overwritten in place, a new key is appended. -/
def insertAL {α β : Type} [DecidableEq α] : List (α × β) → α → β → List (α × β)
  | [], k, v => [(k, v)]
  | (k', v') :: rest, k, v =>
    if k' = k then (k, v) :: rest else (k', v') :: insertAL rest k v

/-- Errors surfaced by `AssembleProvision`.  `regionError` stands for an
arbitrary error value produced by `Region.GetProvision`, `lookupError` for an
arbitrary error value produced by the `helper.PodEnableReclaim` policy lookup,
and `invalidRegionAssignment` for the `fmt.Errorf` built by the assembler when
a numa-exclusive region does not hold exactly one pod (it records the pod set
that was formatted into the message). -/
inductive GoErr : Type where
  | regionError (msg : String)
  | invalidRegionAssignment (podSet : List String)
  | lookupError (msg : String)
deriving DecidableEq, Repr

instance {ε α : Type} [DecidableEq ε] [DecidableEq α] : DecidableEq (Except ε α) := by
  intro a b
  cases a <;> cases b <;> first
    | (apply isFalse; intro h; exact Except.noConfusion h)
    | (rename_i x y
       exact if h : x = y then isTrue (by rw [h]) else
         isFalse (fun hc => h (by injection hc)))

/-- The control-knob map returned by `Region.GetProvision`, restricted to the
three knob kinds the assembler reads.  Go indexing of a missing key yields the
zero value, so a total structure of `Int` fields models the map faithfully
(each field holding `int(controlKnob[kind].Value)`). -/
structure ControlKnob where
  nonReclaimedCPUSize : Int
  nonReclaimedCPUSizeUpper : Int
  nonReclaimedCPUSizeLower : Int
deriving DecidableEq, Repr

/-- Region types dispatched on by the assembler; `other` stands for any region
type that is not one of the three handled cases (ignored by the switch). -/
inductive QoSRegionType where
  | share
  | isolation
  | dedicatedNumaExclusive
  | other
deriving DecidableEq, Repr

/-- Snapshot of one `region.QoSRegion` for the duration of a call:
`name` = `Name()`, `ownerPoolName` = `OwnerPoolName()`, `rtype` = `Type()`,
`bindingNumas` = `GetBindingNumas().ToSliceInt()`, `pods` = the pod UIDs of
`GetPods()`, and `provision` = the result of `GetProvision()`. -/
structure Region where
  name : String
  ownerPoolName : String
  rtype : QoSRegionType
  bindingNumas : List Int
  pods : List String
  provision : Except GoErr ControlKnob
deriving DecidableEq, Repr

/-- `types.InternalCPUCalculationResult`: `PoolEntries` is a map from pool
name to a map from NUMA id to CPU count.  The capture timestamp is not
modelled (no claim mentions it).  The zero value has empty entries. -/
structure InternalCPUCalculationResult where
  poolEntries : List (String × List (Int × Int))
deriving DecidableEq, Repr

/-- The zero value `types.InternalCPUCalculationResult{}`. -/
def emptyResult : InternalCPUCalculationResult := ⟨[]⟩

/-- `SetPoolEntry(poolName, numaID, size)`: create the inner map if absent and
store the size under the NUMA id. -/
def InternalCPUCalculationResult.SetPoolEntry (r : InternalCPUCalculationResult)
    (pool : String) (numa : Int) (size : Int) : InternalCPUCalculationResult :=
  ⟨insertAL r.poolEntries pool
    (insertAL ((lookupAL r.poolEntries pool).getD []) numa size)⟩

/-- Read one pool entry of a result: `PoolEntries[pool][numa]` when present. -/
def InternalCPUCalculationResult.getPoolEntry (r : InternalCPUCalculationResult)
    (pool : String) (numa : Int) : Option Int :=
  (lookupAL r.poolEntries pool).bind (fun inner => lookupAL inner numa)

/-- `state.PoolNameReserve`. -/
def PoolNameReserve : String := "reserve"

/-- `state.PoolNameReclaim`. -/
def PoolNameReclaim : String := "reclaim"

/-- Modelled from the spec: `cpuadvisor.FakedNUMAID`, the reserved node-wide
sentinel NUMA id (its defining constant is not among the provided sources);
any value distinct from real NUMA ids works, `-1` is used. -/
def FakedNUMAID : Int := -1

/-- The point-in-time snapshot of everything `AssembleProvision` reads:
the node-level reclaim flag, the metadata reader's answer to
`GetPoolSize(reserve)` (`none` models found = false), the region map in
iteration order, the three caller-owned capacity inputs, and the
`helper.PodEnableReclaim` policy oracle. -/
structure Snapshot where
  nodeEnableReclaim : Bool
  reservePool : Option Int
  regions : List Region
  reservedForReclaim : List (Int × Int)
  numaAvailable : List (Int × Int)
  nonBindingNumas : List Int
  podEnableReclaim : String → Bool → Except GoErr Bool

/-- `getNumasReservedForReclaim`: sum the `reservedForReclaim` values over a
NUMA-id set, skipping ids absent from the map (the `ok` check in the source). -/
def getNumasReservedForReclaim (reservedForReclaim : List (Int × Int))
    (numas : List Int) : Int :=
  numas.foldl (fun res i =>
    match lookupAL reservedForReclaim i with
    | some v => res + v
    | none => res) 0

/-- Modelled from the spec: `getNumasAvailableResource` (its body is not among
the provided sources, only its call sites) — a pure lookup-and-sum of
`numaAvailable` over a NUMA-id set, treating missing ids as zero. -/
def getNumasAvailableResource (numaAvailable : List (Int × Int))
    (numas : List Int) : Int :=
  numas.foldl (fun res i => res + (lookupAL numaAvailable i).getD 0) 0

/-- Modelled from the spec: `general.MergeMapInt` (not among the provided
sources) — a combined demand mapping built by merging two maps, entries of the
second argument overriding those of the first. -/
def MergeMapInt (a b : List (String × Int)) : List (String × Int) :=
  b.foldl (fun m p => insertAL m p.1 p.2) a

/-- Modelled from the spec: `general.SumUpMapValues` (not among the provided
sources) — the total of the map's values. -/
def SumUpMapValues (m : List (String × Int)) : Int :=
  (m.map Prod.snd).sum

/-- Modelled from the spec: the Pool Size Regulator `regulatePoolSizes` (its
body is not among the provided sources, only its call site).  Per the
specification's contract, if total demand is at most `available` the demand is
returned unchanged with `boundUpper = true`; otherwise the sizes are reduced
to fit within `available` by a deterministic proportional scale-down, floored
to non-negative integers, with `boundUpper = false`.  The node reclaim flag is
accepted as in the contract's signature; the specification's policy does not
make the result depend on it. -/
def regulatePoolSizes (poolSizes : List (String × Int)) (available : Int)
    (reclaimEnabled : Bool) : List (String × Int) × Bool :=
  let total := SumUpMapValues poolSizes
  if total ≤ available then (poolSizes, true)
  else
    (poolSizes.map (fun p =>
      (p.1, (Int.ofNat (p.2.toNat * available.toNat / total.toNat)))), false)

/-- Modelled from the spec: `PodSet.PopAny` (not among the provided sources)
— singleton extraction over the pod set, specified as an explicit size check
followed by direct element access with no destructive semantics and no
mutation of caller-owned state: it yields an element and leaves the set
unchanged. -/
def popAny (pods : List String) : Option String × List String :=
  (pods.head?, pods)

/-- The mutable locals accumulated by the region loop of `AssembleProvision`. -/
structure LoopAcc where
  result : InternalCPUCalculationResult
  shares : Int
  isolationUppers : Int
  sharePoolSizes : List (String × Int)
  isolationUpperSizes : List (String × Int)
  isolationLowerSizes : List (String × Int)
deriving DecidableEq, Repr

/-- Outcome of the region loop: `panicked` models the out-of-range index when
a dedicated numa-exclusive region has an empty binding-NUMA set, `err` an
early `return` with an error, `ok` normal completion. -/
inductive LoopOut where
  | panicked
  | err (e : GoErr)
  | ok (acc : LoopAcc)
deriving DecidableEq, Repr

/-- One iteration of the region loop (lines 86–134 of the source), returning
the loop outcome together with the region as left behind by the iteration. -/
def processRegion (s : Snapshot) (acc : LoopAcc) (r : Region) : LoopOut × Region :=
  match r.provision with
  | .error e => (.err e, r)
  | .ok controlKnob =>
    match r.rtype with
    | .share =>
      let sizes := insertAL acc.sharePoolSizes r.ownerPoolName
        controlKnob.nonReclaimedCPUSize
      (.ok { acc with
          sharePoolSizes := sizes,
          shares := acc.shares + controlKnob.nonReclaimedCPUSize }, r)
    | .isolation =>
      (.ok { acc with
          isolationUpperSizes := insertAL acc.isolationUpperSizes r.name
            controlKnob.nonReclaimedCPUSizeUpper,
          isolationLowerSizes := insertAL acc.isolationLowerSizes r.name
            controlKnob.nonReclaimedCPUSizeLower,
          isolationUppers := acc.isolationUppers +
            controlKnob.nonReclaimedCPUSizeUpper }, r)
    | .dedicatedNumaExclusive =>
      match r.bindingNumas with
      | [] => (.panicked, r)
      | regionNuma :: _ =>
        let reserved := getNumasReservedForReclaim s.reservedForReclaim r.bindingNumas
        if r.pods.length ≠ 1 then
          (.err (.invalidRegionAssignment r.pods), r)
        else
          let popped := popAny r.pods
          let r' : Region := { r with pods := popped.2 }
          let podUID := popped.1.getD ""
          match s.podEnableReclaim podUID s.nodeEnableReclaim with
          | .error e => (.err e, r')
          | .ok enableReclaim =>
            if !enableReclaim then
              if reserved > 0 then
                (.ok { acc with result :=
                  acc.result.SetPoolEntry PoolNameReclaim regionNuma reserved }, r')
              else
                (.ok acc, r')
            else
              let available := getNumasAvailableResource s.numaAvailable r.bindingNumas
              let reclaimed := available - controlKnob.nonReclaimedCPUSize + reserved
              (.ok { acc with result :=
                acc.result.SetPoolEntry PoolNameReclaim regionNuma reclaimed }, r')
    | .other => (.ok acc, r)

/-- The region loop: fold `processRegion` over the regions, stopping at the
first non-ok outcome; also returns the region list as left behind. -/
def runLoop (s : Snapshot) : LoopAcc → List Region → LoopOut × List Region
  | acc, [] => (.ok acc, [])
  | acc, r :: rest =>
    match processRegion s acc r with
    | (.ok acc', r') =>
      let next := runLoop s acc' rest
      (next.1, r' :: next.2)
    | (.panicked, r') => (.panicked, r' :: rest)
    | (.err e, r') => (.err e, r' :: rest)

/-- The loop accumulator at entry: fresh result already holding the reserve
pool entry (lines 70–77), counters at zero, empty size maps.  The found flag
of `GetPoolSize` is discarded; a missing pool contributes the zero value. -/
def initAcc (s : Snapshot) : LoopAcc :=
  { result := emptyResult.SetPoolEntry PoolNameReserve FakedNUMAID (s.reservePool.getD 0),
    shares := 0,
    isolationUppers := 0,
    sharePoolSizes := [],
    isolationUpperSizes := [],
    isolationLowerSizes := [] }

/-- The whole region loop of `AssembleProvision` on a snapshot. -/
def loopOut (s : Snapshot) : LoopOut × List Region :=
  runLoop s (initAcc s) s.regions

/-- `shareAndIsolatedPoolAvailable` (line 136): `numaAvailable` summed over
the non-binding NUMA ids. -/
def shareAndIsolatedAvailable (s : Snapshot) : Int :=
  getNumasAvailableResource s.numaAvailable s.nonBindingNumas

/-- `shareAndIsolatePoolSizes` as passed to regulation (lines 137–140): share
sizes merged with isolation upper sizes, rebuilt from the lower sizes when
`shares + isolationUppers` exceeds the available total. -/
def combinedDemand (available : Int) (acc : LoopAcc) : List (String × Int) :=
  if acc.shares + acc.isolationUppers > available then
    MergeMapInt acc.sharePoolSizes acc.isolationLowerSizes
  else
    MergeMapInt acc.sharePoolSizes acc.isolationUpperSizes

/-- The regulation call of line 141 (regulated sizes and `boundUpper`). -/
def regulatedPair (s : Snapshot) (acc : LoopAcc) : List (String × Int) × Bool :=
  regulatePoolSizes (combinedDemand (shareAndIsolatedAvailable s) acc)
    (shareAndIsolatedAvailable s) s.nodeEnableReclaim

/-- The regulated pool sizes. -/
def regulatedSizes (s : Snapshot) (acc : LoopAcc) : List (String × Int) :=
  (regulatedPair s acc).1

/-- The `boundUpper` flag produced by regulation. -/
def regulatedBound (s : Snapshot) (acc : LoopAcc) : Bool :=
  (regulatedPair s acc).2

/-- `reclaimPoolSizeOfNonBindingNumas` (lines 153–162). -/
def reclaimNonBinding (s : Snapshot) (acc : LoopAcc) : Int :=
  if s.nodeEnableReclaim then
    shareAndIsolatedAvailable s - SumUpMapValues (regulatedSizes s acc)
      + getNumasReservedForReclaim s.reservedForReclaim s.nonBindingNumas
  else
    getNumasReservedForReclaim s.reservedForReclaim s.nonBindingNumas

/-- Outcome of a call to `AssembleProvision`: either the out-of-band failure
of an out-of-range index, or the Go triple (result, boundUpper, error). -/
inductive AOutcome where
  | panicked
  | ret (result : InternalCPUCalculationResult) (boundUpper : Bool) (e : Option GoErr)
deriving DecidableEq, Repr

/-- `ProvisionAssemblerCommon.AssembleProvision`, also returning the snapshot
as left behind by the call (for the frame property).  On a loop error the Go
code returns the zero-value result, `false` and the error; on success it
writes the regulated node-wide pool entries (lines 148–151), then the
node-wide reclaim entry (line 163), and returns the result with `boundUpper`. -/
def AssembleProvision (s : Snapshot) : AOutcome × Snapshot :=
  match loopOut s with
  | (.panicked, rs) => (.panicked, { s with regions := rs })
  | (.err e, rs) => (.ret emptyResult false (some e), { s with regions := rs })
  | (.ok acc, rs) =>
    let withPools := (regulatedSizes s acc).foldl
      (fun res p => res.SetPoolEntry p.1 FakedNUMAID p.2) acc.result
    let final := withPools.SetPoolEntry PoolNameReclaim FakedNUMAID
      (reclaimNonBinding s acc)
    (.ret final (regulatedBound s acc) none, { s with regions := rs })

/-- Pool-entry lookup on a call outcome (none when the call panicked). -/
def outcomePoolEntry (o : AOutcome) (pool : String) (numa : Int) : Option Int :=
  match o with
  | .panicked => none
  | .ret res _ _ => res.getPoolEntry pool numa

/-- The error component of a call outcome (none when the call panicked). -/
def outcomeErr : AOutcome → Option GoErr
  | .panicked => none
  | .ret _ _ e => e

/-- The `boundUpper` component of a call outcome. -/
def outcomeBound : AOutcome → Option Bool
  | .panicked => none
  | .ret _ b _ => some b

/-! ### Association-list and pool-entry lemmas -/

lemma lookupAL_insertAL_self {α β : Type} [DecidableEq α] (m : List (α × β))
    (k : α) (v : β) : lookupAL (insertAL m k v) k = some v := by
  induction m with
  | nil => simp [insertAL, lookupAL]
  | cons p rest ih =>
    rcases p with ⟨k', v'⟩
    by_cases h : k' = k
    · subst h; simp [insertAL, lookupAL]
    · simp [insertAL, lookupAL, h, ih]

lemma lookupAL_insertAL_ne {α β : Type} [DecidableEq α] (m : List (α × β))
    {k k' : α} (v : β) (h : k' ≠ k) :
    lookupAL (insertAL m k' v) k = lookupAL m k := by
  induction m with
  | nil => simp [insertAL, lookupAL, h]
  | cons p rest ih =>
    rcases p with ⟨k₀, v₀⟩
    by_cases h0 : k₀ = k'
    · subst h0; simp [insertAL, lookupAL, h]
    · by_cases hk : k₀ = k <;> simp [insertAL, lookupAL, h0, hk, ih, Ne.symm h]

lemma lookupAL_none_forall {α β : Type} [DecidableEq α] (m : List (α × β))
    (k : α) (h : lookupAL m k = none) : ∀ q ∈ m, q.1 ≠ k := by
  induction m with
  | nil => simp
  | cons p rest ih =>
    rcases p with ⟨k', v⟩
    by_cases h0 : k' = k
    · simp [lookupAL, h0] at h
    · have h' : lookupAL rest k = none := by simpa [lookupAL, h0] using h
      intro q hq
      rcases List.mem_cons.mp hq with rfl | hmem
      · exact h0
      · exact ih h' q hmem

lemma getPoolEntry_set_self (r : InternalCPUCalculationResult)
    (p : String) (n : Int) (v : Int) :
    (r.SetPoolEntry p n v).getPoolEntry p n = some v := by
  unfold InternalCPUCalculationResult.SetPoolEntry InternalCPUCalculationResult.getPoolEntry
  simp [lookupAL_insertAL_self]

lemma getPoolEntry_set_pool_ne (r : InternalCPUCalculationResult)
    {p p' : String} (n n' : Int) (v : Int) (h : p' ≠ p) :
    (r.SetPoolEntry p' n' v).getPoolEntry p n = r.getPoolEntry p n := by
  unfold InternalCPUCalculationResult.SetPoolEntry InternalCPUCalculationResult.getPoolEntry
  rw [lookupAL_insertAL_ne _ _ h]

lemma getPoolEntry_set_numa_ne (r : InternalCPUCalculationResult)
    (p : String) {n n' : Int} (v : Int) (h : n' ≠ n) :
    (r.SetPoolEntry p n' v).getPoolEntry p n = r.getPoolEntry p n := by
  unfold InternalCPUCalculationResult.SetPoolEntry InternalCPUCalculationResult.getPoolEntry
  rw [lookupAL_insertAL_self]
  cases h0 : lookupAL r.poolEntries p <;>
    simp [h0, lookupAL_insertAL_ne _ _ h, lookupAL, h]

lemma getPoolEntry_set_ne (r : InternalCPUCalculationResult)
    (p p' : String) {n n' : Int} (v : Int) (h : n' ≠ n) :
    (r.SetPoolEntry p' n' v).getPoolEntry p n = r.getPoolEntry p n := by
  by_cases hp : p' = p
  · subst hp; exact getPoolEntry_set_numa_ne _ _ _ h
  · exact getPoolEntry_set_pool_ne _ _ _ _ hp

lemma fold_set_sentinel (l : List (String × Int)) :
    ∀ (res : InternalCPUCalculationResult) (p : String) (n : Int),
    n ≠ FakedNUMAID →
    ((l.foldl (fun r q => r.SetPoolEntry q.1 FakedNUMAID q.2) res).getPoolEntry p n)
      = res.getPoolEntry p n := by
  induction l with
  | nil => intro res p n _; rfl
  | cons q t ih =>
    intro res p n hn
    simp only [List.foldl_cons]
    rw [ih _ p n hn]
    exact getPoolEntry_set_ne _ _ _ _ (Ne.symm hn)

lemma fold_set_pool_notmem (l : List (String × Int)) :
    ∀ (res : InternalCPUCalculationResult) (p : String) (n : Int),
    (∀ q ∈ l, q.1 ≠ p) →
    ((l.foldl (fun r q => r.SetPoolEntry q.1 FakedNUMAID q.2) res).getPoolEntry p n)
      = res.getPoolEntry p n := by
  induction l with
  | nil => intro res p n _; rfl
  | cons q t ih =>
    intro res p n hq
    simp only [List.foldl_cons]
    rw [ih _ p n (fun x hx => hq x (List.mem_cons_of_mem _ hx))]
    exact getPoolEntry_set_pool_ne _ _ _ _ (hq q (List.mem_cons_self _ _))

/-! ### Loop structure lemmas -/

lemma processRegion_frame (s : Snapshot) (acc : LoopAcc) (r : Region) :
    (processRegion s acc r).2 = r := by
  obtain ⟨nm, ow, rt, bn, pd, pv⟩ := r
  rcases pv with e | ck
  · rfl
  · cases rt
    case share => rfl
    case isolation => rfl
    case other => rfl
    case dedicatedNumaExclusive =>
      rcases bn with _ | ⟨a, t⟩
      · rfl
      · unfold processRegion
        dsimp only
        by_cases hlen : pd.length ≠ 1
        · rw [if_pos hlen]
        · rw [if_neg hlen]
          rcases ho : s.podEnableReclaim ((popAny pd).1.getD "") s.nodeEnableReclaim with e | en
          · rfl
          · cases en
            · dsimp only
              split <;> first | rfl | (split <;> rfl)
            · rfl

lemma runLoop_frame (s : Snapshot) :
    ∀ (rs : List Region) (acc : LoopAcc), (runLoop s acc rs).2 = rs := by
  intro rs
  induction rs with
  | nil => intro acc; rfl
  | cons r t ih =>
    intro acc
    unfold runLoop
    rcases hp : processRegion s acc r with ⟨o, r'⟩
    have hr : r' = r := by
      have h := processRegion_frame s acc r
      rw [hp] at h
      exact h
    cases o <;> simp [hr, ih]

lemma runLoop_append_ok (s : Snapshot) (l2 : List Region) :
    ∀ (l1 : List Region) (acc acc' : LoopAcc) (l1' : List Region),
      runLoop s acc l1 = (.ok acc', l1') →
      runLoop s acc (l1 ++ l2)
        = ((runLoop s acc' l2).1, l1' ++ (runLoop s acc' l2).2) := by
  intro l1
  induction l1 with
  | nil =>
    intro acc acc' l1' h
    simp only [runLoop] at h
    injection h with h1 h2
    injection h1 with h1
    subst h1; subst h2
    simp
  | cons r t ih =>
    intro acc acc' l1' h
    rw [List.cons_append]
    simp only [runLoop] at h ⊢
    rcases hp : processRegion s acc r with ⟨o, r'⟩
    cases o with
    | ok acc₁ =>
      rw [hp] at h
      dsimp only at h ⊢
      rcases hq : runLoop s acc₁ t with ⟨o₂, t₂⟩
      rw [hq] at h
      dsimp only at h
      injection h with h1 h2
      subst h2
      have hrec := ih acc₁ acc' t₂ (by rw [hq, h1])
      rw [hrec]
      simp
    | panicked => rw [hp] at h; simp at h
    | err e => rw [hp] at h; simp at h

/-! ### Outcome classification (independent of the accumulator) -/

/-- The shape of a loop step or loop run: panic, error, or normal. -/
inductive StepKind where
  | panicked
  | err (e : GoErr)
  | ok
deriving DecidableEq, Repr

/-- Forget the accumulator of a loop outcome. -/
def kindOfLoopOut : LoopOut → StepKind
  | .panicked => .panicked
  | .err e => .err e
  | .ok _ => .ok

/-- How one region's iteration ends, read off the snapshot and region alone. -/
def regionKind (s : Snapshot) (r : Region) : StepKind :=
  match r.provision with
  | .error e => .err e
  | .ok _ =>
    match r.rtype with
    | .dedicatedNumaExclusive =>
      match r.bindingNumas with
      | [] => .panicked
      | _ :: _ =>
        if r.pods.length ≠ 1 then .err (.invalidRegionAssignment r.pods)
        else
          match s.podEnableReclaim ((popAny r.pods).1.getD "") s.nodeEnableReclaim with
          | .error e => .err e
          | .ok _ => .ok
    | _ => .ok

/-- How the region loop ends on a list of regions: the first non-ok kind. -/
def loopKind (s : Snapshot) : List Region → StepKind
  | [] => .ok
  | r :: rest =>
    match regionKind s r with
    | .ok => loopKind s rest
    | k => k

lemma processRegion_kind (s : Snapshot) (acc : LoopAcc) (r : Region) :
    kindOfLoopOut (processRegion s acc r).1 = regionKind s r := by
  obtain ⟨nm, ow, rt, bn, pd, pv⟩ := r
  rcases pv with e | ck
  · rfl
  · cases rt
    case share => rfl
    case isolation => rfl
    case other => rfl
    case dedicatedNumaExclusive =>
      rcases bn with _ | ⟨a, t⟩
      · rfl
      · unfold processRegion regionKind
        dsimp only
        by_cases hlen : pd.length ≠ 1
        · rw [if_pos hlen, if_pos hlen]
          rfl
        · rw [if_neg hlen, if_neg hlen]
          rcases ho : s.podEnableReclaim ((popAny pd).1.getD "") s.nodeEnableReclaim with e | en
          · rfl
          · cases en
            · dsimp only
              split <;> first | rfl | (split <;> rfl)
            · rfl

lemma runLoop_kind (s : Snapshot) :
    ∀ (rs : List Region) (acc : LoopAcc),
      kindOfLoopOut (runLoop s acc rs).1 = loopKind s rs := by
  intro rs
  induction rs with
  | nil => intro acc; rfl
  | cons r t ih =>
    intro acc
    simp only [runLoop, loopKind]
    rcases hp : processRegion s acc r with ⟨o, r'⟩
    have hk := processRegion_kind s acc r
    rw [hp] at hk
    dsimp only at hk
    cases o with
    | ok acc₁ =>
      rw [← hk]
      dsimp only [kindOfLoopOut]
      exact ih acc₁
    | panicked => rw [← hk]; rfl
    | err e => rw [← hk]; rfl

lemma regionKind_reservePool (s : Snapshot) (v : Option Int) (r : Region) :
    regionKind { s with reservePool := v } r = regionKind s r := rfl

lemma loopKind_reservePool (s : Snapshot) (v : Option Int) :
    ∀ rs, loopKind { s with reservePool := v } rs = loopKind s rs := by
  intro rs
  induction rs with
  | nil => rfl
  | cons r t ih =>
    rcases hk : regionKind s r <;>
      simp [loopKind, regionKind_reservePool, hk, ih]

/-! ### The loop only writes reclaim pool entries -/

lemma processRegion_preserves (s : Snapshot) (acc : LoopAcc) (r : Region)
    (acc' : LoopAcc) (r' : Region) (h : processRegion s acc r = (.ok acc', r'))
    (p : String) (n : Int) (hp : p ≠ PoolNameReclaim) :
    acc'.result.getPoolEntry p n = acc.result.getPoolEntry p n := by
  obtain ⟨nm, ow, rt, bn, pd, pv⟩ := r
  rcases pv with e | ck
  · simp [processRegion] at h
  · cases rt
    case share =>
      simp only [processRegion, Prod.mk.injEq, LoopOut.ok.injEq] at h
      obtain ⟨h1, h2⟩ := h
      subst h1
      rfl
    case isolation =>
      simp only [processRegion, Prod.mk.injEq, LoopOut.ok.injEq] at h
      obtain ⟨h1, h2⟩ := h
      subst h1
      rfl
    case other =>
      simp only [processRegion, Prod.mk.injEq, LoopOut.ok.injEq] at h
      obtain ⟨h1, h2⟩ := h
      subst h1
      rfl
    case dedicatedNumaExclusive =>
      rcases bn with _ | ⟨a, t⟩
      · simp [processRegion] at h
      · unfold processRegion at h
        dsimp only at h
        by_cases hlen : pd.length ≠ 1
        · rw [if_pos hlen] at h
          simp at h
        · rw [if_neg hlen] at h
          rcases ho : s.podEnableReclaim ((popAny pd).1.getD "") s.nodeEnableReclaim with e | en
          · rw [ho] at h; simp at h
          · rw [ho] at h
            dsimp only at h
            cases en
            · rw [if_pos (show (!false) = true from rfl)] at h
              split at h
              · simp only [Prod.mk.injEq, LoopOut.ok.injEq] at h
                obtain ⟨h1, h2⟩ := h
                subst h1
                exact getPoolEntry_set_pool_ne _ _ _ _ (Ne.symm hp)
              · simp only [Prod.mk.injEq, LoopOut.ok.injEq] at h
                obtain ⟨h1, h2⟩ := h
                subst h1
                rfl
            · rw [if_neg (show ¬(!true) = true from by simp)] at h
              simp only [Prod.mk.injEq, LoopOut.ok.injEq] at h
              obtain ⟨h1, h2⟩ := h
              subst h1
              exact getPoolEntry_set_pool_ne _ _ _ _ (Ne.symm hp)

lemma runLoop_preserves (s : Snapshot) :
    ∀ (rs : List Region) (acc acc' : LoopAcc) (rs' : List Region),
      runLoop s acc rs = (.ok acc', rs') →
      ∀ (p : String) (n : Int), p ≠ PoolNameReclaim →
      acc'.result.getPoolEntry p n = acc.result.getPoolEntry p n := by
  intro rs
  induction rs with
  | nil =>
    intro acc acc' rs' h p n hp
    simp only [runLoop] at h
    injection h with h1 h2
    injection h1 with h1
    subst h1
    rfl
  | cons r t ih =>
    intro acc acc' rs' h p n hp
    simp only [runLoop] at h
    rcases hq : processRegion s acc r with ⟨o, r'⟩
    rw [hq] at h
    cases o with
    | ok acc₁ =>
      dsimp only at h
      rcases hr : runLoop s acc₁ t with ⟨o₂, t₂⟩
      rw [hr] at h
      dsimp only at h
      injection h with h1 h2
      have hstep := ih acc₁ acc' t₂ (by rw [hr, h1]) p n hp
      rw [hstep]
      exact processRegion_preserves s acc r acc₁ r' hq p n hp
    | panicked => simp at h
    | err e => simp at h

/-! ### Unfolding helpers for the call outcome -/

lemma regulatePoolSizes_nil (a : Int) (b : Bool) :
    (regulatePoolSizes [] a b).1 = [] := by
  unfold regulatePoolSizes
  dsimp only
  split <;> rfl

lemma assemble_ok_unfold (s : Snapshot) (acc : LoopAcc) (rs : List Region)
    (h : loopOut s = (.ok acc, rs)) :
    (AssembleProvision s).1 =
      .ret
        (((regulatedSizes s acc).foldl
            (fun res p => res.SetPoolEntry p.1 FakedNUMAID p.2) acc.result).SetPoolEntry
          PoolNameReclaim FakedNUMAID (reclaimNonBinding s acc))
        (regulatedBound s acc) none := by
  unfold AssembleProvision
  rw [h]

lemma assemble_err_unfold (s : Snapshot) (e : GoErr) (rs : List Region)
    (h : loopOut s = (.err e, rs)) :
    (AssembleProvision s).1 = .ret emptyResult false (some e) := by
  unfold AssembleProvision
  rw [h]

lemma assemble_panic_unfold (s : Snapshot) (rs : List Region)
    (h : loopOut s = (.panicked, rs)) :
    (AssembleProvision s).1 = .panicked := by
  unfold AssembleProvision
  rw [h]

lemma assemble_entry_nonSentinel (s : Snapshot) (acc : LoopAcc) (rs : List Region)
    (h : loopOut s = (.ok acc, rs)) (p : String) (n : Int) (hn : n ≠ FakedNUMAID) :
    outcomePoolEntry (AssembleProvision s).1 p n = acc.result.getPoolEntry p n := by
  rw [assemble_ok_unfold s acc rs h]
  unfold outcomePoolEntry
  dsimp only
  rw [getPoolEntry_set_ne _ _ _ _ (Ne.symm hn)]
  exact fold_set_sentinel _ _ _ _ hn

lemma outcomeErr_eq_loopKind (s : Snapshot) :
    outcomeErr (AssembleProvision s).1 =
      (match loopKind s s.regions with
       | .err e => some e
       | _ => none) := by
  have hk := runLoop_kind s s.regions (initAcc s)
  rcases h : loopOut s with ⟨o, rs⟩
  have h1 : (runLoop s (initAcc s) s.regions).1 = o := by
    rw [show runLoop s (initAcc s) s.regions = loopOut s from rfl, h]
  rw [h1] at hk
  cases o with
  | panicked => rw [assemble_panic_unfold s rs h, ← hk]; rfl
  | err e => rw [assemble_err_unfold s e rs h, ← hk]; rfl
  | ok acc => rw [assemble_ok_unfold s acc rs h, ← hk]; rfl

/-! ### Arithmetic lemmas for the regulator bound -/

lemma SumUp_cons (q : String × Int) (m : List (String × Int)) :
    SumUpMapValues (q :: m) = q.2 + SumUpMapValues m := by
  simp [SumUpMapValues]

lemma sumUp_nonneg (d : List (String × Int)) (hd : ∀ p ∈ d, 0 ≤ p.2) :
    0 ≤ SumUpMapValues d := by
  induction d with
  | nil => simp [SumUpMapValues]
  | cons q t ih =>
    rw [SumUp_cons]
    have h0 := hd q (by simp)
    have ht := ih (fun p hp => hd p (by simp [hp]))
    omega

lemma sum_ofNat_map (d : List (String × Int)) (f : String × Int → ℕ) :
    SumUpMapValues (d.map (fun p => (p.1, (Int.ofNat (f p)))))
      = Int.ofNat ((d.map f).sum) := by
  induction d with
  | nil => rfl
  | cons q t ih =>
    simp only [List.map_cons, List.sum_cons, SumUp_cons, ih]
    exact (Int.ofNat_add _ _).symm

lemma toNat_sum (d : List (String × Int)) (hd : ∀ p ∈ d, 0 ≤ p.2) :
    (d.map (fun p => p.2.toNat)).sum = (SumUpMapValues d).toNat := by
  induction d with
  | nil => rfl
  | cons q t ih =>
    have h0 := hd q (by simp)
    have ht : ∀ p ∈ t, 0 ≤ p.2 := fun p hp => hd p (by simp [hp])
    have hs := sumUp_nonneg t ht
    simp only [List.map_cons, List.sum_cons, SumUp_cons, ih ht]
    omega

lemma div_add_div_le_nat (a b c : ℕ) : a / c + b / c ≤ (a + b) / c := by
  rcases Nat.eq_zero_or_pos c with hc | hc
  · subst hc; simp
  · rw [Nat.le_div_iff_mul_le hc, Nat.add_mul]
    exact Nat.add_le_add (Nat.div_mul_le_self a c) (Nat.div_mul_le_self b c)

lemma sum_div_le_nat (l : List ℕ) (c : ℕ) :
    (l.map (· / c)).sum ≤ l.sum / c := by
  induction l with
  | nil => simp
  | cons x t ih =>
    simp only [List.map_cons, List.sum_cons]
    exact le_trans (Nat.add_le_add_left ih _) (div_add_div_le_nat _ _ _)

/-! ### Closed forms for one dedicated-region iteration -/

lemma processRegion_invalid (s : Snapshot) (acc : LoopAcc) (r : Region)
    (a : Int) (t : List Int) (ck : ControlKnob)
    (ht : r.rtype = .dedicatedNumaExclusive) (hb : r.bindingNumas = a :: t)
    (hprov : r.provision = .ok ck) (hl : r.pods.length ≠ 1) :
    processRegion s acc r = (.err (.invalidRegionAssignment r.pods), r) := by
  obtain ⟨nm, ow, rt, bn, pd, pv⟩ := r
  dsimp only at ht hb hprov hl ⊢
  subst ht; subst hb; subst hprov
  unfold processRegion
  dsimp only
  rw [if_pos hl]

lemma processRegion_empty_numas (s : Snapshot) (acc : LoopAcc) (r : Region)
    (ck : ControlKnob)
    (ht : r.rtype = .dedicatedNumaExclusive) (hb : r.bindingNumas = [])
    (hprov : r.provision = .ok ck) :
    processRegion s acc r = (.panicked, r) := by
  obtain ⟨nm, ow, rt, bn, pd, pv⟩ := r
  dsimp only at ht hb hprov ⊢
  subst ht; subst hb; subst hprov
  rfl

lemma processRegion_dedicated_enabled (s : Snapshot) (acc : LoopAcc) (r : Region)
    (a : Int) (t : List Int) (ck : ControlKnob) (uid : String)
    (ht : r.rtype = .dedicatedNumaExclusive) (hb : r.bindingNumas = a :: t)
    (hprov : r.provision = .ok ck) (hpods : r.pods = [uid])
    (ho : s.podEnableReclaim uid s.nodeEnableReclaim = .ok true) :
    processRegion s acc r =
      (.ok { acc with result := (acc.result.SetPoolEntry PoolNameReclaim a
          (getNumasAvailableResource s.numaAvailable (a :: t)
            - ck.nonReclaimedCPUSize
            + getNumasReservedForReclaim s.reservedForReclaim (a :: t))) }, r) := by
  obtain ⟨nm, ow, rt, bn, pd, pv⟩ := r
  dsimp only at ht hb hprov hpods ⊢
  subst ht; subst hb; subst hprov; subst hpods
  unfold processRegion
  dsimp only
  rw [if_neg (by simp)]
  rw [show (((popAny [uid]).1).getD "") = uid from rfl]
  rw [ho]
  dsimp only
  rw [if_neg (by simp)]
  rfl

lemma processRegion_dedicated_disabled (s : Snapshot) (acc : LoopAcc) (r : Region)
    (a : Int) (t : List Int) (ck : ControlKnob) (uid : String)
    (ht : r.rtype = .dedicatedNumaExclusive) (hb : r.bindingNumas = a :: t)
    (hprov : r.provision = .ok ck) (hpods : r.pods = [uid])
    (ho : s.podEnableReclaim uid s.nodeEnableReclaim = .ok false) :
    processRegion s acc r =
      (.ok (if getNumasReservedForReclaim s.reservedForReclaim (a :: t) > 0
            then { acc with result := (acc.result.SetPoolEntry PoolNameReclaim a
                (getNumasReservedForReclaim s.reservedForReclaim (a :: t))) }
            else acc), r) := by
  obtain ⟨nm, ow, rt, bn, pd, pv⟩ := r
  dsimp only at ht hb hprov hpods ⊢
  subst ht; subst hb; subst hprov; subst hpods
  unfold processRegion
  dsimp only
  rw [if_neg (by simp)]
  rw [show (((popAny [uid]).1).getD "") = uid from rfl]
  rw [ho]
  dsimp only
  rw [if_pos (show (!false) = true from rfl)]
  split <;> rfl

lemma runLoop_single (s : Snapshot) (acc acc' : LoopAcc) (r r' : Region)
    (h : processRegion s acc r = (.ok acc', r')) :
    runLoop s acc [r] = (.ok acc', [r']) := by
  simp only [runLoop]
  rw [h]

lemma runLoop_cons_err (s : Snapshot) (acc : LoopAcc) (r r' : Region) (e : GoErr)
    (rest : List Region) (h : processRegion s acc r = (.err e, r')) :
    runLoop s acc (r :: rest) = (.err e, r' :: rest) := by
  simp only [runLoop]
  rw [h]

lemma runLoop_cons_panic (s : Snapshot) (acc : LoopAcc) (r r' : Region)
    (rest : List Region) (h : processRegion s acc r = (.panicked, r')) :
    runLoop s acc (r :: rest) = (.panicked, r' :: rest) := by
  simp only [runLoop]
  rw [h]

/-! ### Claim theorems and witnesses -/

/-- Extract the accumulator of a normally completed loop (used by witnesses). -/
def accOf : LoopOut → LoopAcc
  | .ok a => a
  | _ => { result := emptyResult, shares := 0, isolationUppers := 0,
           sharePoolSizes := [], isolationUpperSizes := [], isolationLowerSizes := [] }

/-- Claim C1: if any step of the region loop fails (a region's `GetProvision`
error, the dedicated-exclusive pod-count check, or the per-pod reclaim-policy
lookup error), `AssembleProvision` returns the zero-value result, `boundUpper
= false` and that error; no pool entry written before the failure appears in
the returned result, since the zero value holds no entries. -/
theorem assemble_first_error_aborts (s : Snapshot) (e : GoErr) (rs : List Region)
    (h : loopOut s = (.err e, rs)) :
    (AssembleProvision s).1 = .ret emptyResult false (some e) :=
  assemble_err_unfold s e rs h

def wRegionC1 : Region :=
  { name := "r1", ownerPoolName := "p1", rtype := .share, bindingNumas := [],
    pods := [], provision := .error (.regionError "collect failed") }

def wSnapC1 : Snapshot :=
  { nodeEnableReclaim := true, reservePool := some 2, regions := [wRegionC1],
    reservedForReclaim := [(0, 1)], numaAvailable := [(0, 10)],
    nonBindingNumas := [0], podEnableReclaim := fun _ _ => .ok true }

theorem assemble_first_error_aborts_witness :
    loopOut wSnapC1 = (.err (.regionError "collect failed"), wSnapC1.regions) ∧
      (AssembleProvision wSnapC1).1
        = .ret emptyResult false (some (.regionError "collect failed")) :=
  ⟨rfl, assemble_first_error_aborts wSnapC1 (.regionError "collect failed")
    wSnapC1.regions rfl⟩

/-- Claim C3: on every successful call, the node-wide (sentinel NUMA id)
reclaim pool entry of the returned result equals `reclaimNonBinding`:
`shareAndIsolatedAvailable − sum(regulated sizes) + sum(reservedForReclaim
over nonBindingNumas)` when node reclaim is enabled, and just
`sum(reservedForReclaim over nonBindingNumas)` otherwise; it is the last
entry written at that key, hence the unique one. -/
theorem assemble_reclaim_nonbinding_entry (s : Snapshot) (acc : LoopAcc)
    (rs : List Region) (h : loopOut s = (.ok acc, rs)) :
    outcomePoolEntry (AssembleProvision s).1 PoolNameReclaim FakedNUMAID
      = some (reclaimNonBinding s acc) := by
  rw [assemble_ok_unfold s acc rs h]
  unfold outcomePoolEntry
  dsimp only
  exact getPoolEntry_set_self _ _ _ _

def wSnapC3 : Snapshot :=
  { nodeEnableReclaim := true, reservePool := some 2,
    regions := [{ name := "share-0", ownerPoolName := "share", rtype := .share,
                  bindingNumas := [], pods := [], provision := .ok ⟨5, 0, 0⟩ }],
    reservedForReclaim := [(0, 1), (1, 1)], numaAvailable := [(0, 10), (1, 10)],
    nonBindingNumas := [1], podEnableReclaim := fun _ _ => .ok true }

def wAccC3 : LoopAcc := accOf (loopOut wSnapC3).1

theorem assemble_reclaim_nonbinding_entry_witness :
    loopOut wSnapC3 = (.ok wAccC3, wSnapC3.regions) ∧
      outcomePoolEntry (AssembleProvision wSnapC3).1 PoolNameReclaim FakedNUMAID
        = some (reclaimNonBinding wSnapC3 wAccC3) ∧
      reclaimNonBinding wSnapC3 wAccC3 = 6 :=
  ⟨rfl, assemble_reclaim_nonbinding_entry wSnapC3 wAccC3 wSnapC3.regions rfl, rfl⟩

/-- Claim C6: when the loop reaches a `DedicatedNumaExclusive` region whose
pod set does not hold exactly one workload (zero, or two or more),
`AssembleProvision` returns the zero-value result, `boundUpper = false` and
the `InvalidRegionAssignment` error recording that pod set (stated for a
region with a non-empty binding-NUMA set, as the data model requires —
otherwise the out-of-range index of the preceding line fires first). -/
theorem assemble_invalid_assignment_aborts (s : Snapshot) (pre : List Region)
    (r : Region) (post : List Region) (acc : LoopAcc) (pre' : List Region)
    (a : Int) (t : List Int) (ck : ControlKnob)
    (hregions : s.regions = pre ++ r :: post)
    (hpre : runLoop s (initAcc s) pre = (.ok acc, pre'))
    (ht : r.rtype = .dedicatedNumaExclusive)
    (hb : r.bindingNumas = a :: t)
    (hprov : r.provision = .ok ck)
    (hl : r.pods.length ≠ 1) :
    (AssembleProvision s).1
      = .ret emptyResult false (some (.invalidRegionAssignment r.pods)) := by
  have hstep := processRegion_invalid s acc r a t ck ht hb hprov hl
  have hcons := runLoop_cons_err s acc r r (.invalidRegionAssignment r.pods) post hstep
  have hloop : loopOut s = (.err (.invalidRegionAssignment r.pods), pre' ++ r :: post) := by
    unfold loopOut
    rw [hregions, runLoop_append_ok s (r :: post) pre (initAcc s) acc pre' hpre, hcons]
  exact assemble_err_unfold s _ _ hloop

def wRegionC6 : Region :=
  { name := "d0", ownerPoolName := "d0", rtype := .dedicatedNumaExclusive,
    bindingNumas := [0], pods := ["u1", "u2"], provision := .ok ⟨5, 0, 0⟩ }

def wSnapC6 : Snapshot :=
  { nodeEnableReclaim := true, reservePool := some 2, regions := [wRegionC6],
    reservedForReclaim := [(0, 1)], numaAvailable := [(0, 10)],
    nonBindingNumas := [], podEnableReclaim := fun _ _ => .ok true }

theorem assemble_invalid_assignment_aborts_witness :
    wRegionC6.pods.length ≠ 1 ∧
      (AssembleProvision wSnapC6).1
        = .ret emptyResult false (some (.invalidRegionAssignment wRegionC6.pods)) :=
  ⟨by decide, assemble_invalid_assignment_aborts wSnapC6 [] wRegionC6 []
    (initAcc wSnapC6) [] 0 [] ⟨5, 0, 0⟩ rfl rfl rfl rfl rfl (by decide)⟩

/-- Claim C8: the call leaves all caller-owned inputs unchanged: the snapshot
as left behind (region map with every region's pod set, `reservedForReclaim`,
`numaAvailable`, `nonBindingNumas`) equals the input snapshot — singleton
extraction is a size check plus non-destructive element access. -/
theorem assemble_inputs_unchanged (s : Snapshot) : (AssembleProvision s).2 = s := by
  unfold AssembleProvision
  rcases h : loopOut s with ⟨o, rs⟩
  have h2 : rs = s.regions := by
    have hf := runLoop_frame s s.regions (initAcc s)
    rw [show runLoop s (initAcc s) s.regions = loopOut s from rfl, h] at hf
    exact hf
  subst h2
  cases o <;> rfl

/-- Claim C9: the bound NUMA id is read (element 0 of the binding-NUMA slice)
before the pod-count validation and the reclaim-policy lookup, so the access
is well-defined only when the region's binding-NUMA set is non-empty; a
`DedicatedNumaExclusive` region with an empty set makes the call fail out of
band (`panicked`, the out-of-range index) rather than return an error,
whatever its pod count. -/
theorem assemble_empty_binding_panics (s : Snapshot) (pre : List Region)
    (r : Region) (post : List Region) (acc : LoopAcc) (pre' : List Region)
    (ck : ControlKnob)
    (hregions : s.regions = pre ++ r :: post)
    (hpre : runLoop s (initAcc s) pre = (.ok acc, pre'))
    (ht : r.rtype = .dedicatedNumaExclusive)
    (hb : r.bindingNumas = [])
    (hprov : r.provision = .ok ck) :
    (AssembleProvision s).1 = .panicked := by
  have hstep := processRegion_empty_numas s acc r ck ht hb hprov
  have hcons := runLoop_cons_panic s acc r r post hstep
  have hloop : loopOut s = (.panicked, pre' ++ r :: post) := by
    unfold loopOut
    rw [hregions, runLoop_append_ok s (r :: post) pre (initAcc s) acc pre' hpre, hcons]
  exact assemble_panic_unfold s _ hloop

def wRegionC9 : Region :=
  { name := "d0", ownerPoolName := "d0", rtype := .dedicatedNumaExclusive,
    bindingNumas := [], pods := [], provision := .ok ⟨5, 0, 0⟩ }

def wSnapC9 : Snapshot :=
  { nodeEnableReclaim := true, reservePool := some 2, regions := [wRegionC9],
    reservedForReclaim := [(0, 1)], numaAvailable := [(0, 10)],
    nonBindingNumas := [0], podEnableReclaim := fun _ _ => .ok true }

theorem assemble_empty_binding_panics_witness :
    wRegionC9.pods.length ≠ 1 ∧ (AssembleProvision wSnapC9).1 = .panicked :=
  ⟨by decide, assemble_empty_binding_panics wSnapC9 [] wRegionC9 []
    (initAcc wSnapC9) [] ⟨5, 0, 0⟩ rfl rfl rfl rfl rfl⟩

/-- Claim C2: with share regions totalling `shares` and isolation regions
with upper sizes totalling `isolationUppers` (the accumulator equalities and
disjoint pool/region names, as the data model specifies): if `shares +
isolationUppers ≤ shareAndIsolatedAvailable`, the combined demand passed to
regulation is the share sizes merged with the isolation upper sizes, the
regulated sizes equal that merged demand, and the call returns `boundUpper =
true`; otherwise the combined demand is rebuilt from the isolation lower
sizes before regulation. -/
theorem assemble_fallback_uppers (s : Snapshot) (acc : LoopAcc) (rs : List Region)
    (h : loopOut s = (.ok acc, rs))
    (hsh : acc.shares = SumUpMapValues acc.sharePoolSizes)
    (hup : acc.isolationUppers = SumUpMapValues acc.isolationUpperSizes)
    (hdisj : SumUpMapValues (MergeMapInt acc.sharePoolSizes acc.isolationUpperSizes)
      = SumUpMapValues acc.sharePoolSizes + SumUpMapValues acc.isolationUpperSizes) :
    (acc.shares + acc.isolationUppers ≤ shareAndIsolatedAvailable s →
      combinedDemand (shareAndIsolatedAvailable s) acc
          = MergeMapInt acc.sharePoolSizes acc.isolationUpperSizes
        ∧ regulatedSizes s acc = MergeMapInt acc.sharePoolSizes acc.isolationUpperSizes
        ∧ outcomeBound (AssembleProvision s).1 = some true)
    ∧ (shareAndIsolatedAvailable s < acc.shares + acc.isolationUppers →
      combinedDemand (shareAndIsolatedAvailable s) acc
          = MergeMapInt acc.sharePoolSizes acc.isolationLowerSizes) := by
  constructor
  · intro hle
    have hcd : combinedDemand (shareAndIsolatedAvailable s) acc
        = MergeMapInt acc.sharePoolSizes acc.isolationUpperSizes := by
      unfold combinedDemand
      rw [if_neg (not_lt.mpr hle)]
    have hsum : SumUpMapValues (MergeMapInt acc.sharePoolSizes acc.isolationUpperSizes)
        ≤ shareAndIsolatedAvailable s := by
      rw [hdisj, ← hsh, ← hup]
      exact hle
    have hreg : regulatePoolSizes (MergeMapInt acc.sharePoolSizes acc.isolationUpperSizes)
        (shareAndIsolatedAvailable s) s.nodeEnableReclaim
        = (MergeMapInt acc.sharePoolSizes acc.isolationUpperSizes, true) := by
      unfold regulatePoolSizes
      dsimp only
      rw [if_pos hsum]
    refine ⟨hcd, ?_, ?_⟩
    · unfold regulatedSizes regulatedPair
      rw [hcd, hreg]
    · rw [assemble_ok_unfold s acc rs h]
      unfold outcomeBound
      dsimp only
      unfold regulatedBound regulatedPair
      rw [hcd, hreg]
  · intro hgt
    unfold combinedDemand
    rw [if_pos hgt]

def wSnapC2 : Snapshot :=
  { nodeEnableReclaim := true, reservePool := some 2,
    regions := [{ name := "share-0", ownerPoolName := "share", rtype := .share,
                  bindingNumas := [], pods := [], provision := .ok ⟨5, 0, 0⟩ },
                { name := "iso-0", ownerPoolName := "iso-0", rtype := .isolation,
                  bindingNumas := [], pods := [], provision := .ok ⟨0, 3, 1⟩ }],
    reservedForReclaim := [(0, 1)], numaAvailable := [(0, 10)],
    nonBindingNumas := [0], podEnableReclaim := fun _ _ => .ok true }

def wAccC2 : LoopAcc := accOf (loopOut wSnapC2).1

theorem assemble_fallback_uppers_witness :
    loopOut wSnapC2 = (.ok wAccC2, wSnapC2.regions) ∧
      wAccC2.shares + wAccC2.isolationUppers ≤ shareAndIsolatedAvailable wSnapC2 ∧
      (combinedDemand (shareAndIsolatedAvailable wSnapC2) wAccC2
          = MergeMapInt wAccC2.sharePoolSizes wAccC2.isolationUpperSizes
        ∧ regulatedSizes wSnapC2 wAccC2
            = MergeMapInt wAccC2.sharePoolSizes wAccC2.isolationUpperSizes
        ∧ outcomeBound (AssembleProvision wSnapC2).1 = some true) :=
  ⟨rfl, by decide,
    (assemble_fallback_uppers wSnapC2 wAccC2 wSnapC2.regions rfl rfl rfl rfl).1
      (by decide)⟩

/-- Claim C4: a `DedicatedNumaExclusive` region whose single workload has
reclaim enabled yields a reclaim pool entry for its bound NUMA id equal to
`available(bindingNumas) − NonReclaimedCPUSize + reservedForReclaim
(bindingNumas)`, written unconditionally — the value is an unclamped integer
and may be negative. -/
theorem assemble_dedicated_reclaim_enabled_entry (s : Snapshot)
    (pre : List Region) (r : Region) (acc : LoopAcc) (pre' : List Region)
    (ck : ControlKnob) (uid : String) (numa : Int) (t : List Int)
    (hregions : s.regions = pre ++ [r])
    (hpre : runLoop s (initAcc s) pre = (.ok acc, pre'))
    (ht : r.rtype = .dedicatedNumaExclusive)
    (hb : r.bindingNumas = numa :: t)
    (hprov : r.provision = .ok ck)
    (hpods : r.pods = [uid])
    (ho : s.podEnableReclaim uid s.nodeEnableReclaim = .ok true)
    (hn : numa ≠ FakedNUMAID) :
    outcomePoolEntry (AssembleProvision s).1 PoolNameReclaim numa =
      some (getNumasAvailableResource s.numaAvailable r.bindingNumas
        - ck.nonReclaimedCPUSize
        + getNumasReservedForReclaim s.reservedForReclaim r.bindingNumas) := by
  have hstep := processRegion_dedicated_enabled s acc r numa t ck uid ht hb hprov hpods ho
  have hone := runLoop_single s acc _ r r hstep
  have hloop : loopOut s =
      (.ok { acc with result := (acc.result.SetPoolEntry PoolNameReclaim numa
          (getNumasAvailableResource s.numaAvailable (numa :: t)
            - ck.nonReclaimedCPUSize
            + getNumasReservedForReclaim s.reservedForReclaim (numa :: t))) },
       pre' ++ [r]) := by
    unfold loopOut
    rw [hregions, runLoop_append_ok s [r] pre (initAcc s) acc pre' hpre, hone]
  rw [hb]
  rw [assemble_entry_nonSentinel s _ _ hloop PoolNameReclaim numa hn]
  exact getPoolEntry_set_self _ _ _ _

def wRegionC4 : Region :=
  { name := "d0", ownerPoolName := "d0", rtype := .dedicatedNumaExclusive,
    bindingNumas := [0], pods := ["pod-a"], provision := .ok ⟨10, 0, 0⟩ }

def wSnapC4 : Snapshot :=
  { nodeEnableReclaim := true, reservePool := some 2, regions := [wRegionC4],
    reservedForReclaim := [(0, 1)], numaAvailable := [(0, 2), (1, 8)],
    nonBindingNumas := [1], podEnableReclaim := fun _ _ => .ok true }

theorem assemble_dedicated_reclaim_enabled_entry_witness :
    outcomePoolEntry (AssembleProvision wSnapC4).1 PoolNameReclaim 0 = some (-7) ∧
      (-7 : Int) < 0 := by
  constructor
  · rw [assemble_dedicated_reclaim_enabled_entry wSnapC4 [] wRegionC4
      (initAcc wSnapC4) [] ⟨10, 0, 0⟩ "pod-a" 0 [] rfl rfl rfl rfl rfl rfl rfl
      (by decide)]
    rfl
  · decide

/-- Claim C5: a `DedicatedNumaExclusive` region whose single workload has
reclaim disabled yields a reclaim pool entry for its bound NUMA id equal to
the NUMA's static reclaim reservation if and only if that reservation is
strictly positive; when the reservation is zero or negative no entry exists
for that NUMA id. -/
theorem assemble_dedicated_reclaim_disabled_entry (s : Snapshot) (r : Region)
    (ck : ControlKnob) (uid : String) (numa : Int) (t : List Int)
    (hregions : s.regions = [r])
    (ht : r.rtype = .dedicatedNumaExclusive)
    (hb : r.bindingNumas = numa :: t)
    (hprov : r.provision = .ok ck)
    (hpods : r.pods = [uid])
    (ho : s.podEnableReclaim uid s.nodeEnableReclaim = .ok false)
    (hn : numa ≠ FakedNUMAID) :
    outcomePoolEntry (AssembleProvision s).1 PoolNameReclaim numa =
      (if getNumasReservedForReclaim s.reservedForReclaim r.bindingNumas > 0
       then some (getNumasReservedForReclaim s.reservedForReclaim r.bindingNumas)
       else none) := by
  have hstep := processRegion_dedicated_disabled s (initAcc s) r numa t ck uid ht hb hprov hpods ho
  have hone := runLoop_single s (initAcc s) _ r r hstep
  have hloop : loopOut s =
      (.ok (if getNumasReservedForReclaim s.reservedForReclaim (numa :: t) > 0
            then { initAcc s with result := ((initAcc s).result.SetPoolEntry
                PoolNameReclaim numa
                (getNumasReservedForReclaim s.reservedForReclaim (numa :: t))) }
            else initAcc s), [r]) := by
    unfold loopOut
    rw [hregions, hone]
  rw [hb]
  rw [assemble_entry_nonSentinel s _ _ hloop PoolNameReclaim numa hn]
  by_cases hres : getNumasReservedForReclaim s.reservedForReclaim (numa :: t) > 0
  · rw [if_pos hres, if_pos hres]
    exact getPoolEntry_set_self _ _ _ _
  · rw [if_neg hres, if_neg hres]
    unfold initAcc
    dsimp only
    rw [getPoolEntry_set_pool_ne _ _ _ _
      (show PoolNameReserve ≠ PoolNameReclaim from by decide)]
    rfl

def wRegionC5 : Region :=
  { name := "d0", ownerPoolName := "d0", rtype := .dedicatedNumaExclusive,
    bindingNumas := [0], pods := ["pod-a"], provision := .ok ⟨5, 0, 0⟩ }

def wSnapC5 : Snapshot :=
  { nodeEnableReclaim := true, reservePool := some 2, regions := [wRegionC5],
    reservedForReclaim := [(0, 3)], numaAvailable := [(0, 10)],
    nonBindingNumas := [1], podEnableReclaim := fun _ _ => .ok false }

def wSnapC5z : Snapshot :=
  { nodeEnableReclaim := true, reservePool := some 2, regions := [wRegionC5],
    reservedForReclaim := [(0, 0)], numaAvailable := [(0, 10)],
    nonBindingNumas := [1], podEnableReclaim := fun _ _ => .ok false }

theorem assemble_dedicated_reclaim_disabled_entry_witness :
    outcomePoolEntry (AssembleProvision wSnapC5).1 PoolNameReclaim 0 = some 3 ∧
      outcomePoolEntry (AssembleProvision wSnapC5z).1 PoolNameReclaim 0 = none := by
  constructor
  · rw [assemble_dedicated_reclaim_disabled_entry wSnapC5 wRegionC5 ⟨5, 0, 0⟩
      "pod-a" 0 [] rfl rfl rfl rfl rfl rfl (by decide)]
    rfl
  · rw [assemble_dedicated_reclaim_disabled_entry wSnapC5z wRegionC5 ⟨5, 0, 0⟩
      "pod-a" 0 [] rfl rfl rfl rfl rfl rfl (by decide)]
    rfl

/-- Claim C7, counterexample to the claim as stated: at demand `{p ↦ 5}` and
`available = 5` the regulated total equals `available`, yet the input demand
total did not exceed `available` — so equality does not occur only in the
exceeding case. -/
theorem regulate_equality_without_excess :
    SumUpMapValues (regulatePoolSizes [("p", 5)] 5 true).1 = 5 ∧
      ¬ (5 : Int) < SumUpMapValues [(("p" : String), (5 : Int))] := by
  constructor
  · rfl
  · decide

/-- Claim C7 (amended): for every demand mapping with nonnegative sizes and
every nonnegative available total, the sum over all pools of the regulated
sizes is at most `available`, with equality only when the input demand total
is at least `available`; in particular regulation never produces a total
above `available`. -/
theorem regulate_sum_bound (d : List (String × Int)) (a : Int) (re : Bool)
    (ha : 0 ≤ a) (hd : ∀ p ∈ d, 0 ≤ p.2) :
    SumUpMapValues (regulatePoolSizes d a re).1 ≤ a ∧
      (SumUpMapValues (regulatePoolSizes d a re).1 = a → a ≤ SumUpMapValues d) := by
  unfold regulatePoolSizes
  dsimp only
  by_cases h : SumUpMapValues d ≤ a
  · rw [if_pos h]
    exact ⟨h, fun he => le_of_eq he.symm⟩
  · rw [if_neg h]
    push_neg at h
    constructor
    · rw [sum_ofNat_map d (fun p => p.2.toNat * a.toNat / (SumUpMapValues d).toNat)]
      have hT : 0 < (SumUpMapValues d).toNat := by omega
      have h1 : (d.map (fun p => p.2.toNat * a.toNat / (SumUpMapValues d).toNat)).sum
          ≤ (d.map (fun p => p.2.toNat * a.toNat)).sum / (SumUpMapValues d).toNat := by
        have h2 := sum_div_le_nat (d.map (fun p => p.2.toNat * a.toNat))
          ((SumUpMapValues d).toNat)
        simpa [List.map_map, Function.comp] using h2
      have h3 : (d.map (fun p => p.2.toNat * a.toNat)).sum
          = (d.map (fun p => p.2.toNat)).sum * a.toNat :=
        List.sum_map_mul_right d (fun p => p.2.toNat) a.toNat
      rw [h3, toNat_sum d hd, Nat.mul_div_cancel_left _ hT] at h1
      exact le_trans (Int.ofNat_le.mpr h1) (le_of_eq (Int.toNat_of_nonneg ha))
    · intro _
      exact le_of_lt h

theorem regulate_sum_bound_witness :
    (0 : Int) ≤ 5 ∧ (∀ p ∈ [(("p" : String), (3 : Int))], 0 ≤ p.2) ∧
      (SumUpMapValues (regulatePoolSizes [("p", 3)] 5 true).1 ≤ 5 ∧
        (SumUpMapValues (regulatePoolSizes [("p", 3)] 5 true).1 = 5 →
          (5 : Int) ≤ SumUpMapValues [(("p" : String), (3 : Int))])) :=
  ⟨by decide, by decide, regulate_sum_bound [("p", 3)] 5 true (by decide) (by decide)⟩

/-- Claim C10: the node-wide reserve pool entry is written unconditionally,
with the found flag of `GetPoolSize` discarded: when the reserve pool is
absent from metadata the entry is written with size 0 (provided regulation
produced no pool named `reserve` that would overwrite it at lines 149–151),
and changing the reserve pool's presence can never change the error outcome
of the call. -/
theorem assemble_missing_reserve (s : Snapshot) (hres : s.reservePool = none) :
    (∀ (acc : LoopAcc) (rs : List Region), loopOut s = (.ok acc, rs) →
      lookupAL (regulatedSizes s acc) PoolNameReserve = none →
      outcomePoolEntry (AssembleProvision s).1 PoolNameReserve FakedNUMAID = some 0)
    ∧ (∀ (v : Option Int),
        outcomeErr (AssembleProvision { s with reservePool := v }).1
          = outcomeErr (AssembleProvision s).1) := by
  constructor
  · intro acc rs h hnone
    rw [assemble_ok_unfold s acc rs h]
    unfold outcomePoolEntry
    dsimp only
    rw [getPoolEntry_set_pool_ne _ _ _ _
      (show PoolNameReclaim ≠ PoolNameReserve from by decide)]
    rw [fold_set_pool_notmem _ _ _ _ (lookupAL_none_forall _ _ hnone)]
    rw [runLoop_preserves s s.regions (initAcc s) acc rs
      (by rw [show runLoop s (initAcc s) s.regions = loopOut s from rfl, h])
      PoolNameReserve FakedNUMAID
      (show PoolNameReserve ≠ PoolNameReclaim from by decide)]
    unfold initAcc
    dsimp only
    rw [getPoolEntry_set_self, hres]
    rfl
  · intro v
    rw [outcomeErr_eq_loopKind, outcomeErr_eq_loopKind]
    rw [show ({ s with reservePool := v } : Snapshot).regions = s.regions from rfl]
    rw [loopKind_reservePool]

def wSnapC10 : Snapshot :=
  { nodeEnableReclaim := true, reservePool := none,
    regions := [{ name := "share-0", ownerPoolName := "share", rtype := .share,
                  bindingNumas := [], pods := [], provision := .ok ⟨5, 0, 0⟩ }],
    reservedForReclaim := [(0, 1)], numaAvailable := [(0, 10)],
    nonBindingNumas := [0], podEnableReclaim := fun _ _ => .ok true }

def wAccC10 : LoopAcc := accOf (loopOut wSnapC10).1

theorem assemble_missing_reserve_witness :
    outcomePoolEntry (AssembleProvision wSnapC10).1 PoolNameReserve FakedNUMAID
        = some 0 ∧
      outcomeErr (AssembleProvision { wSnapC10 with reservePool := some 7 }).1
        = outcomeErr (AssembleProvision wSnapC10).1 :=
  ⟨(assemble_missing_reserve wSnapC10 rfl).1 wAccC10 wSnapC10.regions rfl rfl,
    (assemble_missing_reserve wSnapC10 rfl).2 (some 7)⟩
